import Mathlib

/-!
Verification of the UKHASnet film-canister node firmware
(`fc-node3/firmware/main.c`, with the simpler scraper-node encoder of the
unnamed scraper source for the base wire format).

The firmware's main loop is embedded as a pure cycle-tick transition on an
explicit state record.  Each pass of the `while(1)` loop is one cycle tick;
the freshly sampled battery voltage (mV) and temperature (tenths of a degree,
the value `dtostrf(·,1,1)` renders) are inputs of the tick.  Observable
effects (ADC sample, temperature sample, packet encoding, radio transmit)
are returned as an event list.
-/

/-- `#define NODE_ID "JH9"` (fc-node3). -/
def NODE_ID : String := "JH9"

/-- `#define HOPS "1"` (fc-node3). -/
def HOPS : String := "1"

/-- `#define WAKE_FREQ 5` (fc-node3). -/
def WAKE_FREQ : Nat := 5

/-- `#define TX_POWER_DBM 10` (fc-node3). -/
def TX_POWER_DBM : Nat := 10

/-- `#define POWER_MODE_WDT_THRESH 1350` — enter `MODE_WDT` below this (mV). -/
def POWER_MODE_WDT_THRESH : Nat := 1350

/-- `#define POWER_MODE_WDT_HYST 50` — hysteresis gap (mV). -/
def POWER_MODE_WDT_HYST : Nat := 50

/-- `typedef enum power_mode_t { MODE_WDT = 0, MODE_BOOSTOFF, ... }`.
`MODE_BOOSTOFF` is the spec's BOOST_ON mode, `MODE_WDT` the spec's WDT_POLL. -/
inductive power_mode_t where
  | MODE_WDT
  | MODE_BOOSTOFF
  deriving DecidableEq

/-- The numeric value of the C enum (`MODE_WDT = 0`, `MODE_BOOSTOFF = 1`),
as printed into the packet's `X` field by `utoa(power_mode, p, 10)`. -/
def power_mode_ord : power_mode_t → Nat
  | power_mode_t.MODE_WDT => 0
  | power_mode_t.MODE_BOOSTOFF => 1

/-- avr-libc `utoa(n, buf, 10)`: unsigned decimal rendering. -/
def utoa (n : Nat) : String := Nat.repr n

/-- avr-libc `dtostrf(x, 1, 1, buf)`: minimal width, one fractional digit.
The input is taken as the (already rounded) signed number of tenths of a
degree, so the float itself never appears in the model. -/
def dtostrf11 (tenths : Int) : String :=
  (if tenths < 0 then "-" else "")
    ++ utoa (tenths.natAbs / 10) ++ "." ++ utoa (tenths.natAbs % 10)

/-- The fc-node3 packet builder (main.c lines 137–176): writes
`<HOPS><seqid>V<mv>T<t>X<WAKE_FREQ>,<TX_POWER_DBM>,<power_mode>[<NODE_ID>]`
into `packetbuf`.  `seqid` is carried as its ASCII code. -/
def encodePacket3 (seqid : Nat) (batt_mv : Nat) (tempTenths : Int)
    (pm : power_mode_t) : String :=
  HOPS ++ String.singleton (Char.ofNat seqid)
    ++ "V" ++ utoa batt_mv
    ++ "T" ++ dtostrf11 tempTenths
    ++ "X" ++ utoa WAKE_FREQ ++ "," ++ utoa TX_POWER_DBM
    ++ "," ++ utoa (power_mode_ord pm)
    ++ "[" ++ NODE_ID ++ "]"

/-- The scraper-node packet builder (unnamed scraper source, the base wire
format without the `X` diagnostic field):
`<hops><seqid>V<mv>T<dec>.<frac>[<nodeid>]`, where `get_temperature`
returns the integral and fractional parts separately and they are printed
with `sprintf("T%d.%d", ...)`.  The build-time configuration macros
(`HOPS`, `NODE_ID`) are taken as parameters. -/
def encodePacket2 (hops : String) (seqid : Char) (batt_mv : Nat)
    (temp_dec temp_frac : Int) (nodeid : String) : String :=
  hops ++ String.singleton seqid
    ++ "V" ++ utoa batt_mv
    ++ "T" ++ toString temp_dec ++ "." ++ toString temp_frac
    ++ "[" ++ nodeid ++ "]"

/-- The firmware's mutable globals that persist across loop iterations:
`static char seqid`, `static uint8_t wakes`, `static power_mode_t power_mode`.
`seqid` is kept as its ASCII code (a C `char`). -/
structure NodeState where
  seqid : Nat
  wakes : Nat
  power_mode : power_mode_t
  deriving DecidableEq

/-- Initial values: `seqid = 'a'`, `wakes = WAKE_FREQ`,
`power_mode = MODE_BOOSTOFF`. -/
def initState : NodeState :=
  { seqid := Char.toNat 'a', wakes := WAKE_FREQ,
    power_mode := power_mode_t.MODE_BOOSTOFF }

/-- The state right after the first transmission: `wakes` has just been
reset to 1 (used as a concrete mid-cycle state in witnesses). -/
def idleState : NodeState :=
  { seqid := Char.toNat 'b', wakes := 1,
    power_mode := power_mode_t.MODE_BOOSTOFF }

/-- `if(seqid == 'z') seqid = 'b'; else seqid++;` (main.c lines 190–193). -/
def nextSeqid (c : Nat) : Nat :=
  if c = Char.toNat 'z' then Char.toNat 'b' else c + 1

/-- The hysteresis update (main.c lines 196–204): move to `MODE_WDT` when
below threshold, back to `MODE_BOOSTOFF` when above threshold+hysteresis,
else unchanged. -/
def updatePowerMode (pm : power_mode_t) (batt_mv : Nat) : power_mode_t :=
  if pm = power_mode_t.MODE_BOOSTOFF ∧ batt_mv < POWER_MODE_WDT_THRESH then
    power_mode_t.MODE_WDT
  else if pm = power_mode_t.MODE_WDT
      ∧ batt_mv > POWER_MODE_WDT_THRESH + POWER_MODE_WDT_HYST then
    power_mode_t.MODE_BOOSTOFF
  else pm

/-- Observable effects of one cycle tick. -/
inductive Event where
  | sampleVoltage (mv : Nat)
  | sampleTemperature (tenths : Int)
  | encode (pkt : String)
  | transmit (sq : Nat) (pkt : String)
  deriving DecidableEq

def isSampleVoltage : Event → Bool
  | Event.sampleVoltage _ => true
  | _ => false

def isSampleTemperature : Event → Bool
  | Event.sampleTemperature _ => true
  | _ => false

def isEncode : Event → Bool
  | Event.encode _ => true
  | _ => false

def isTransmit : Event → Bool
  | Event.transmit _ _ => true
  | _ => false

/-- One pass of the fc-node3 `while(1)` loop (main.c lines 122–210), with
the voltage and temperature the sensors would return as inputs.  On a
transmit pass (`wakes == WAKE_FREQ`): sample, encode (the packet uses the
pre-update `power_mode`), transmit, reset `wakes` to 1, advance `seqid`,
then update `power_mode` from the sampled `batt_mv`.  Otherwise: `wakes++`
only. -/
def cycleTick (s : NodeState) (v : Nat) (t : Int) : NodeState × List Event :=
  if s.wakes = WAKE_FREQ then
    let batt_mv := v
    let pkt := encodePacket3 s.seqid batt_mv t s.power_mode
    ({ seqid := nextSeqid s.seqid, wakes := 1,
       power_mode := updatePowerMode s.power_mode batt_mv },
     [Event.sampleVoltage v, Event.sampleTemperature t,
      Event.encode pkt, Event.transmit s.seqid pkt])
  else
    ({ s with wakes := s.wakes + 1 }, [])

/-- Run a sequence of cycle ticks, returning the final state. -/
def runState (s : NodeState) : List (Nat × Int) → NodeState
  | [] => s
  | (v, t) :: rest => runState (cycleTick s v t).1 rest

/-- Run a sequence of cycle ticks, returning all emitted events in order. -/
def runEvents (s : NodeState) : List (Nat × Int) → List Event
  | [] => []
  | (v, t) :: rest => (cycleTick s v t).2 ++ runEvents (cycleTick s v t).1 rest

/-- The sequence ids carried by the transmitted packets, in order. -/
def txSeqids (es : List Event) : List Nat :=
  es.filterMap fun e =>
    match e with
    | Event.transmit sq _ => some sq
    | _ => none

/-- Whether the upcoming tick from `s` is a transmit tick. -/
def didTransmit (s : NodeState) : Bool := s.wakes = WAKE_FREQ

/-- Per-tick transmit indicator over a run (one Bool per tick, in order). -/
def runTxFlags (s : NodeState) : List (Nat × Int) → List Bool
  | [] => []
  | (v, t) :: rest => didTransmit s :: runTxFlags (cycleTick s v t).1 rest

/-- `x :: xs` follows the seqid succession from `c`: the first transmitted
id is `c` and each later one is `nextSeqid` of its predecessor. -/
def followsFrom (c : Nat) : List Nat → Bool
  | [] => true
  | x :: xs => decide (x = c) && followsFrom (nextSeqid x) xs

/-- `get_batt_voltage` (main.c lines 276–302): the 10-bit ADC result is
widened to `uint32_t`, scaled by `(r*3300)/1024`, and truncated back to
`uint16_t` on return. -/
def get_batt_voltage (adc : Nat) : Nat :=
  (adc * 3300) % 2 ^ 32 / 1024 % 2 ^ 16

example : encodePacket2 "1" 'a' 3180 21 4 "JH9" = "1aV3180T21.4[JH9]" := by decide

example : encodePacket3 (Char.toNat 'a') 3180 214 power_mode_t.MODE_BOOSTOFF
    = "1aV3180T21.4X5,10,1[JH9]" := by decide

/-! ### Helper lemmas -/

theorem utoa_length_le (n e : Nat) (h1 : 0 < e) (h2 : n < 10 ^ e) :
    (utoa n).length ≤ e :=
  Nat.repr_length n e h1 h2

theorem updatePowerMode_boostoff (v : Nat) :
    updatePowerMode power_mode_t.MODE_BOOSTOFF v
      = if v < POWER_MODE_WDT_THRESH then power_mode_t.MODE_WDT
        else power_mode_t.MODE_BOOSTOFF := by
  simp [updatePowerMode]

theorem updatePowerMode_wdt (v : Nat) :
    updatePowerMode power_mode_t.MODE_WDT v
      = if POWER_MODE_WDT_THRESH + POWER_MODE_WDT_HYST < v then
          power_mode_t.MODE_BOOSTOFF
        else power_mode_t.MODE_WDT := by
  simp [updatePowerMode, Nat.lt_irrefl]

theorem cycleTick_tx_power_mode (s : NodeState) (v : Nat) (t : Int)
    (h : s.wakes = WAKE_FREQ) :
    (cycleTick s v t).1.power_mode = updatePowerMode s.power_mode v := by
  simp [cycleTick, h]

/-! ### Claim theorems -/

/-- C1: on every transmit cycle the power mode moves from `MODE_BOOSTOFF`
(BOOST_ON) to `MODE_WDT` (WDT_POLL) iff the freshly sampled voltage is
strictly below `WDT_ENTRY_MV = 1350`, and from `MODE_WDT` back to
`MODE_BOOSTOFF` iff it is strictly above `WDT_ENTRY_MV + HYSTERESIS_MV =
1400`; in the closed dead-band `[1350, 1400]` the mode is unchanged. -/
theorem claim_C1_power_mode_hysteresis (s : NodeState) (v : Nat) (t : Int)
    (h : s.wakes = WAKE_FREQ) :
    POWER_MODE_WDT_THRESH = 1350 ∧
    POWER_MODE_WDT_THRESH + POWER_MODE_WDT_HYST = 1400 ∧
    (cycleTick s v t).1.power_mode = updatePowerMode s.power_mode v ∧
    (s.power_mode = power_mode_t.MODE_BOOSTOFF →
      ((cycleTick s v t).1.power_mode = power_mode_t.MODE_WDT ↔ v < 1350)) ∧
    (s.power_mode = power_mode_t.MODE_WDT →
      ((cycleTick s v t).1.power_mode = power_mode_t.MODE_BOOSTOFF ↔
        1400 < v)) ∧
    (1350 ≤ v → v ≤ 1400 →
      (cycleTick s v t).1.power_mode = s.power_mode) := by
  have hc := cycleTick_tx_power_mode s v t h
  refine ⟨rfl, rfl, hc, ?_, ?_, ?_⟩
  · intro hpm
    rw [hc, hpm, updatePowerMode_boostoff]
    simp only [POWER_MODE_WDT_THRESH]
    split
    · simp_all
    · simp_all
  · intro hpm
    rw [hc, hpm, updatePowerMode_wdt]
    simp only [POWER_MODE_WDT_THRESH, POWER_MODE_WDT_HYST]
    split
    · simp_all
    · simp_all
  · intro h1 h2
    rw [hc]
    cases hpm : s.power_mode
    · rw [updatePowerMode_wdt]
      simp only [POWER_MODE_WDT_THRESH, POWER_MODE_WDT_HYST]
      rw [if_neg (by omega)]
    · rw [updatePowerMode_boostoff]
      simp only [POWER_MODE_WDT_THRESH]
      rw [if_neg (by omega)]

theorem claim_C1_witness :
    POWER_MODE_WDT_THRESH = 1350 ∧
    POWER_MODE_WDT_THRESH + POWER_MODE_WDT_HYST = 1400 ∧
    (cycleTick initState 1000 0).1.power_mode
      = updatePowerMode initState.power_mode 1000 ∧
    (initState.power_mode = power_mode_t.MODE_BOOSTOFF →
      ((cycleTick initState 1000 0).1.power_mode = power_mode_t.MODE_WDT ↔
        1000 < 1350)) ∧
    (initState.power_mode = power_mode_t.MODE_WDT →
      ((cycleTick initState 1000 0).1.power_mode
          = power_mode_t.MODE_BOOSTOFF ↔ 1400 < 1000)) ∧
    (1350 ≤ 1000 → 1000 ≤ 1400 →
      (cycleTick initState 1000 0).1.power_mode = initState.power_mode) :=
  claim_C1_power_mode_hysteresis initState 1000 0 (by decide)

/-- C2: on a transmit tick (`wakes == WAKE_FREQ`) exactly one voltage
sample, one temperature sample, one packet encoding and one radio
transmission occur, in that order, and the wake counter is reset to 1. -/
theorem claim_C2_transmit_cycle_effects (s : NodeState) (v : Nat) (t : Int)
    (h : s.wakes = WAKE_FREQ) :
    (cycleTick s v t).2 =
      [Event.sampleVoltage v, Event.sampleTemperature t,
       Event.encode (encodePacket3 s.seqid v t s.power_mode),
       Event.transmit s.seqid (encodePacket3 s.seqid v t s.power_mode)] ∧
    (cycleTick s v t).2.countP isSampleVoltage = 1 ∧
    (cycleTick s v t).2.countP isSampleTemperature = 1 ∧
    (cycleTick s v t).2.countP isEncode = 1 ∧
    (cycleTick s v t).2.countP isTransmit = 1 ∧
    (cycleTick s v t).1.wakes = 1 := by
  have he : (cycleTick s v t).2 =
      [Event.sampleVoltage v, Event.sampleTemperature t,
       Event.encode (encodePacket3 s.seqid v t s.power_mode),
       Event.transmit s.seqid (encodePacket3 s.seqid v t s.power_mode)] := by
    simp [cycleTick, h]
  refine ⟨he, ?_, ?_, ?_, ?_, ?_⟩
  · rw [he]
    simp [List.countP_cons, isSampleVoltage, isSampleTemperature, isEncode,
      isTransmit]
  · rw [he]
    simp [List.countP_cons, isSampleVoltage, isSampleTemperature, isEncode,
      isTransmit]
  · rw [he]
    simp [List.countP_cons, isSampleVoltage, isSampleTemperature, isEncode,
      isTransmit]
  · rw [he]
    simp [List.countP_cons, isSampleVoltage, isSampleTemperature, isEncode,
      isTransmit]
  · simp [cycleTick, h]

theorem claim_C2_witness :
    (cycleTick initState 3180 214).2 =
      [Event.sampleVoltage 3180, Event.sampleTemperature 214,
       Event.encode (encodePacket3 initState.seqid 3180 214
         initState.power_mode),
       Event.transmit initState.seqid (encodePacket3 initState.seqid 3180 214
         initState.power_mode)] ∧
    (cycleTick initState 3180 214).2.countP isSampleVoltage = 1 ∧
    (cycleTick initState 3180 214).2.countP isSampleTemperature = 1 ∧
    (cycleTick initState 3180 214).2.countP isEncode = 1 ∧
    (cycleTick initState 3180 214).2.countP isTransmit = 1 ∧
    (cycleTick initState 3180 214).1.wakes = 1 :=
  claim_C2_transmit_cycle_effects initState 3180 214 (by decide)

/-- C3: on a tick with `wakes ∈ [1, WAKE_FREQ-1]` the firmware only
increments the wake counter: no events are emitted (no sampling, no
encoding, no transmission) and neither the sequence id nor the power mode
changes, so the power mode is never re-evaluated between transmit cycles. -/
theorem claim_C3_idle_tick (s : NodeState) (v : Nat) (t : Int)
    (h1 : 1 ≤ s.wakes) (h2 : s.wakes ≤ WAKE_FREQ - 1) :
    (cycleTick s v t).2 = [] ∧
    (cycleTick s v t).1.wakes = s.wakes + 1 ∧
    (cycleTick s v t).1.seqid = s.seqid ∧
    (cycleTick s v t).1.power_mode = s.power_mode := by
  have h : ¬ s.wakes = WAKE_FREQ := by
    simp only [WAKE_FREQ] at h2 ⊢
    omega
  refine ⟨?_, ?_, ?_, ?_⟩ <;> simp [cycleTick, h]

theorem claim_C3_witness :
    (cycleTick idleState 3180 214).2 = [] ∧
    (cycleTick idleState 3180 214).1.wakes = idleState.wakes + 1 ∧
    (cycleTick idleState 3180 214).1.seqid = idleState.seqid ∧
    (cycleTick idleState 3180 214).1.power_mode = idleState.power_mode :=
  claim_C3_idle_tick idleState 3180 214 (by decide) (by decide)

/-- C6: the base packet encoder, applied to hops `"1"`, seqid `'a'`,
voltage 3180 mV, temperature 21.4 °C (integral part 21, fractional digit 4)
and node id `"JH9"`, produces exactly the byte string
`1aV3180T21.4[JH9]`, with no trailing newline. -/
theorem claim_C6_encoder_byte_exact :
    encodePacket2 "1" 'a' 3180 21 4 "JH9" = "1aV3180T21.4[JH9]" := by decide

/-- C9: at power-on `wakes` is initialised to `WAKE_FREQ`, so the very
first cycle tick is a transmit tick, and the first packet carries sequence
id `'a'`. -/
theorem claim_C9_first_tick_transmits (v : Nat) (t : Int) :
    initState.wakes = WAKE_FREQ ∧
    didTransmit initState = true ∧
    (cycleTick initState v t).2.countP isTransmit = 1 ∧
    (cycleTick initState v t).2 =
      [Event.sampleVoltage v, Event.sampleTemperature t,
       Event.encode (encodePacket3 (Char.toNat 'a') v t
         power_mode_t.MODE_BOOSTOFF),
       Event.transmit (Char.toNat 'a')
         (encodePacket3 (Char.toNat 'a') v t
           power_mode_t.MODE_BOOSTOFF)] := by
  have he : (cycleTick initState v t).2 =
      [Event.sampleVoltage v, Event.sampleTemperature t,
       Event.encode (encodePacket3 (Char.toNat 'a') v t
         power_mode_t.MODE_BOOSTOFF),
       Event.transmit (Char.toNat 'a')
         (encodePacket3 (Char.toNat 'a') v t
           power_mode_t.MODE_BOOSTOFF)] := by
    simp [cycleTick, initState]
  refine ⟨rfl, rfl, ?_, he⟩
  rw [he]
  simp [List.countP_cons, isTransmit]

/-- C10: for every 10-bit ADC reading `r ≤ 1023`, `get_batt_voltage`
computes `(r*3300)/1024` with no 32-bit overflow, the result is at most
3296 mV, fits a `uint16_t`, and prints in at most 4 decimal digits. -/
theorem claim_C10_get_batt_voltage (r : Nat) (h : r ≤ 1023) :
    get_batt_voltage r = r * 3300 / 1024 ∧
    get_batt_voltage r ≤ 3296 ∧
    get_batt_voltage r < 2 ^ 16 ∧
    (utoa (get_batt_voltage r)).length ≤ 4 := by
  have h1 : r * 3300 < 2 ^ 32 := by
    have : r * 3300 ≤ 1023 * 3300 := Nat.mul_le_mul_right 3300 h
    omega
  have hdiv : r * 3300 / 1024 ≤ 3296 := by
    have : r * 3300 ≤ 3375900 := by
      have := Nat.mul_le_mul_right 3300 h
      omega
    omega
  have heq : get_batt_voltage r = r * 3300 / 1024 := by
    unfold get_batt_voltage
    rw [Nat.mod_eq_of_lt h1, Nat.mod_eq_of_lt (by omega)]
  refine ⟨heq, ?_, ?_, ?_⟩
  · omega
  · omega
  · refine utoa_length_le _ 4 (by norm_num) ?_
    have : (10 : Nat) ^ 4 = 10000 := by norm_num
    omega

theorem claim_C10_witness :
    get_batt_voltage 1023 = 1023 * 3300 / 1024 ∧
    get_batt_voltage 1023 ≤ 3296 ∧
    get_batt_voltage 1023 < 2 ^ 16 ∧
    (utoa (get_batt_voltage 1023)).length ≤ 4 :=
  claim_C10_get_batt_voltage 1023 (by decide)

theorem wakes_invariant_step (s : NodeState) (v : Nat) (t : Int)
    (h1 : 1 ≤ s.wakes) (h2 : s.wakes ≤ WAKE_FREQ) :
    1 ≤ (cycleTick s v t).1.wakes ∧ (cycleTick s v t).1.wakes ≤ WAKE_FREQ := by
  by_cases h : s.wakes = WAKE_FREQ
  · simp [cycleTick, h, WAKE_FREQ]
  · have hw : (cycleTick s v t).1.wakes = s.wakes + 1 := by
      simp [cycleTick, h]
    rw [hw]
    simp only [WAKE_FREQ] at h2 h ⊢
    omega

theorem runState_wakes_invariant (inputs : List (Nat × Int)) (s : NodeState)
    (h1 : 1 ≤ s.wakes) (h2 : s.wakes ≤ WAKE_FREQ) :
    1 ≤ (runState s inputs).wakes ∧ (runState s inputs).wakes ≤ WAKE_FREQ := by
  induction inputs generalizing s with
  | nil => exact ⟨h1, h2⟩
  | cons q rest ih =>
    obtain ⟨v, t⟩ := q
    have hs := wakes_invariant_step s v t h1 h2
    simpa [runState] using ih (cycleTick s v t).1 hs.1 hs.2

/-- C8: in every state reachable from power-on by cycle ticks,
`1 ≤ wakes ≤ WAKE_FREQ`; a transmit tick resets the counter to 1 and any
other tick increments it by 1. -/
theorem claim_C8_wake_counter_invariant (inputs : List (Nat × Int)) :
    (1 ≤ (runState initState inputs).wakes ∧
      (runState initState inputs).wakes ≤ WAKE_FREQ) ∧
    ∀ v t,
      ((runState initState inputs).wakes = WAKE_FREQ →
        (cycleTick (runState initState inputs) v t).1.wakes = 1) ∧
      (¬ (runState initState inputs).wakes = WAKE_FREQ →
        (cycleTick (runState initState inputs) v t).1.wakes
          = (runState initState inputs).wakes + 1) := by
  refine ⟨runState_wakes_invariant inputs initState (by decide) (by decide),
    fun v t => ⟨fun h => ?_, fun h => ?_⟩⟩
  · simp [cycleTick, h]
  · simp [cycleTick, h]

/-- C5 counterexample: from the code's initial state (`wakes = WAKE_FREQ`),
12 consecutive cycle ticks yield 3 transmissions — on ticks 1, 6 and 11 —
not 2 on ticks 5 and 10; in particular tick 5 does not transmit. -/
theorem claim_C5_counterexample :
    (runTxFlags initState
        (List.replicate 12 ((3180 : Nat), (214 : Int)))).count true = 3 ∧
    ¬ ((runTxFlags initState
        (List.replicate 12 ((3180 : Nat), (214 : Int)))).count true = 2) ∧
    (runTxFlags initState
        (List.replicate 12 ((3180 : Nat), (214 : Int)))).getD 4 true
      = false ∧
    (runTxFlags initState
        (List.replicate 12 ((3180 : Nat), (214 : Int)))).getD 9 true
      = false := by
  decide

/-- C5 amended: because `wakes` starts at `WAKE_FREQ`, the first tick
already transmits; 12 consecutive cycle ticks from the initial state
produce exactly 3 transmissions, on ticks 1, 6 and 11, for any sampled
inputs. -/
theorem claim_C5_amended_three_transmissions
    (i1 i2 i3 i4 i5 i6 i7 i8 i9 i10 i11 i12 : Nat × Int) :
    runTxFlags initState [i1, i2, i3, i4, i5, i6, i7, i8, i9, i10, i11, i12]
      = [true, false, false, false, false, true, false, false, false, false,
         true, false] ∧
    (runTxFlags initState
        [i1, i2, i3, i4, i5, i6, i7, i8, i9, i10, i11, i12]).count true
      = 3 := by
  obtain ⟨v1, t1⟩ := i1
  obtain ⟨v2, t2⟩ := i2
  obtain ⟨v3, t3⟩ := i3
  obtain ⟨v4, t4⟩ := i4
  obtain ⟨v5, t5⟩ := i5
  obtain ⟨v6, t6⟩ := i6
  obtain ⟨v7, t7⟩ := i7
  obtain ⟨v8, t8⟩ := i8
  obtain ⟨v9, t9⟩ := i9
  obtain ⟨v10, t10⟩ := i10
  obtain ⟨v11, t11⟩ := i11
  obtain ⟨v12, t12⟩ := i12
  have hf : runTxFlags initState
      [(v1, t1), (v2, t2), (v3, t3), (v4, t4), (v5, t5), (v6, t6), (v7, t7),
       (v8, t8), (v9, t9), (v10, t10), (v11, t11), (v12, t12)]
      = [true, false, false, false, false, true, false, false, false, false,
         true, false] := by
    simp [runTxFlags, cycleTick, didTransmit, initState, WAKE_FREQ]
  refine ⟨hf, ?_⟩
  rw [hf]
  rfl

theorem nextSeqid_mem (c : Nat) (h1 : 97 ≤ c) (h2 : c ≤ 122) :
    98 ≤ nextSeqid c ∧ nextSeqid c ≤ 122 ∧ nextSeqid c ≠ c := by
  have hz : Char.toNat 'z' = 122 := rfl
  have hb : Char.toNat 'b' = 98 := rfl
  simp only [nextSeqid, hz, hb]
  split <;> omega

theorem followsFrom_props (L : List Nat) :
    ∀ c, 97 ≤ c → c ≤ 122 → followsFrom c L = true →
      (∀ x ∈ L, 97 ≤ x ∧ x ≤ 122) ∧ (∀ x ∈ L.tail, 98 ≤ x) ∧
      List.Chain' (fun a b => a ≠ b) L := by
  induction L with
  | nil =>
    intro c _ _ _
    refine ⟨?_, ?_, ?_⟩ <;> simp
  | cons x xs ih =>
    intro c h1 h2 h3
    simp only [followsFrom, Bool.and_eq_true, decide_eq_true_eq] at h3
    obtain ⟨hx, hrest⟩ := h3
    subst hx
    have hn := nextSeqid_mem x h1 h2
    have ihr := ih (nextSeqid x) (by omega) hn.2.1 hrest
    refine ⟨?_, ?_, ?_⟩
    · intro y hy
      rcases List.mem_cons.mp hy with h | h
      · subst h
        exact ⟨h1, h2⟩
      · exact ihr.1 y h
    · intro y hy
      cases xs with
      | nil => simp at hy
      | cons z zs =>
        simp only [followsFrom, Bool.and_eq_true, decide_eq_true_eq] at hrest
        obtain ⟨hz, _⟩ := hrest
        rcases List.mem_cons.mp hy with h | h
        · subst h
          rw [hz]
          exact hn.1
        · exact ihr.2.1 y h
    · cases xs with
      | nil => simp
      | cons z zs =>
        simp only [followsFrom, Bool.and_eq_true, decide_eq_true_eq] at hrest
        obtain ⟨hz, _⟩ := hrest
        refine List.chain'_cons.mpr ⟨?_, ihr.2.2⟩
        rw [hz]
        exact hn.2.2.symm

theorem txSeqids_cycleTick_tx (s : NodeState) (v : Nat) (t : Int)
    (h : s.wakes = WAKE_FREQ) :
    txSeqids (cycleTick s v t).2 = [s.seqid] ∧
    (cycleTick s v t).1.seqid = nextSeqid s.seqid := by
  constructor <;> simp [cycleTick, h, txSeqids]

theorem txSeqids_cycleTick_idle (s : NodeState) (v : Nat) (t : Int)
    (h : ¬ s.wakes = WAKE_FREQ) :
    txSeqids (cycleTick s v t).2 = [] ∧
    (cycleTick s v t).1.seqid = s.seqid := by
  constructor <;> simp [cycleTick, h, txSeqids]

theorem runEvents_followsFrom (inputs : List (Nat × Int)) :
    ∀ s : NodeState,
      followsFrom s.seqid (txSeqids (runEvents s inputs)) = true := by
  induction inputs with
  | nil =>
    intro s
    rfl
  | cons q rest ih =>
    obtain ⟨v, t⟩ := q
    intro s
    have hr : txSeqids (runEvents s ((v, t) :: rest))
        = txSeqids (cycleTick s v t).2
          ++ txSeqids (runEvents (cycleTick s v t).1 rest) := by
      simp [runEvents, txSeqids, List.filterMap_append]
    by_cases h : s.wakes = WAKE_FREQ
    · obtain ⟨e1, e2⟩ := txSeqids_cycleTick_tx s v t h
      rw [hr, e1]
      simp only [List.singleton_append, followsFrom, Bool.and_eq_true,
        decide_eq_true_eq]
      exact ⟨trivial, e2 ▸ ih (cycleTick s v t).1⟩
    · obtain ⟨e1, e2⟩ := txSeqids_cycleTick_idle s v t h
      rw [hr, e1]
      simp only [List.nil_append]
      exact e2 ▸ ih (cycleTick s v t).1

/-- C4: over any run from power-on, the transmitted sequence ids follow
`'a' → 'b' → ... → 'z' → 'b' → ...` (`followsFrom`), always stay within
`'a'..'z'`, are pairwise distinct between consecutive packets, and `'a'`
never reappears after the first transmission. -/
theorem claim_C4_seqid_succession (inputs : List (Nat × Int)) :
    followsFrom (Char.toNat 'a') (txSeqids (runEvents initState inputs))
      = true ∧
    (∀ x ∈ txSeqids (runEvents initState inputs),
      Char.toNat 'a' ≤ x ∧ x ≤ Char.toNat 'z') ∧
    List.Chain' (fun a b => a ≠ b) (txSeqids (runEvents initState inputs)) ∧
    (∀ x ∈ (txSeqids (runEvents initState inputs)).tail,
      x ≠ Char.toNat 'a') := by
  have ha : Char.toNat 'a' = 97 := rfl
  have hz : Char.toNat 'z' = 122 := rfl
  have hf : followsFrom (Char.toNat 'a')
      (txSeqids (runEvents initState inputs)) = true :=
    runEvents_followsFrom inputs initState
  have hp := followsFrom_props (txSeqids (runEvents initState inputs))
    (Char.toNat 'a') (by omega) (by omega) hf
  refine ⟨hf, ?_, hp.2.2, ?_⟩
  · intro x hx
    have := hp.1 x hx
    omega
  · intro x hx
    have := hp.2.1 x hx
    omega

theorem dtostrf11_length_le (t : Int) (h : t.natAbs ≤ 9999) :
    (dtostrf11 t).length ≤ 6 := by
  have e3 : (10 : Nat) ^ 3 = 1000 := by norm_num
  have e1 : (10 : Nat) ^ 1 = 10 := by norm_num
  have h1 : (utoa (t.natAbs / 10)).length ≤ 3 :=
    utoa_length_le _ 3 (by norm_num) (by rw [e3]; omega)
  have h2 : (utoa (t.natAbs % 10)).length ≤ 1 :=
    utoa_length_le _ 1 (by norm_num) (by rw [e1]; omega)
  have hm : ("-" : String).length = 1 := rfl
  have hd : ("." : String).length = 1 := rfl
  have he : ("" : String).length = 0 := rfl
  unfold dtostrf11
  split
  · simp only [String.length_append, hm, hd]
    omega
  · simp only [String.length_append, hd, he]
    omega

/-- C7: for every sequence id, every voltage that fits a `uint16_t`
(at most 5 decimal digits), every temperature within the configured field
width (at most 3 integral digits, a sign and one fractional digit) and
every power mode, the encoded fc-node3 packet plus its null terminator
fits the fixed 64-byte `packetbuf`. -/
theorem claim_C7_packet_fits_buffer (seqid batt : Nat) (tenths : Int)
    (pm : power_mode_t) (hb : batt < 2 ^ 16) (ht : tenths.natAbs ≤ 9999) :
    (encodePacket3 seqid batt tenths pm).length + 1 ≤ 64 := by
  have e5 : (10 : Nat) ^ 5 = 100000 := by norm_num
  have e1 : (10 : Nat) ^ 1 = 10 := by norm_num
  have h1 : (utoa batt).length ≤ 5 :=
    utoa_length_le _ 5 (by norm_num) (by rw [e5]; omega)
  have h2 : (dtostrf11 tenths).length ≤ 6 := dtostrf11_length_le tenths ht
  have h3 : (utoa (power_mode_ord pm)).length ≤ 1 :=
    utoa_length_le _ 1 (by norm_num)
      (by rw [e1]; cases pm <;> simp [power_mode_ord])
  have hs : (String.singleton (Char.ofNat seqid)).length = 1 := rfl
  have hH : HOPS.length = 1 := rfl
  have hN : NODE_ID.length = 3 := rfl
  have hV : ("V" : String).length = 1 := rfl
  have hT : ("T" : String).length = 1 := rfl
  have hX : ("X" : String).length = 1 := rfl
  have hC : ("," : String).length = 1 := rfl
  have hL : ("[" : String).length = 1 := rfl
  have hR : ("]" : String).length = 1 := rfl
  have hW : (utoa WAKE_FREQ).length = 1 := rfl
  have hP : (utoa TX_POWER_DBM).length = 2 := rfl
  unfold encodePacket3
  simp only [String.length_append, hs, hH, hN, hV, hT, hX, hC, hL, hR, hW,
    hP]
  omega

theorem claim_C7_witness :
    (encodePacket3 (Char.toNat 'a') 3180 214
      power_mode_t.MODE_BOOSTOFF).length + 1 ≤ 64 :=
  claim_C7_packet_fits_buffer (Char.toNat 'a') 3180 214
    power_mode_t.MODE_BOOSTOFF (by decide) (by decide)
